import Mathlib

/-!
Shallow embedding of the VibeNet service (src/app.py).

The SQLite tables become lists of row structures; AUTOINCREMENT ids become
explicit counters in the database state.  SQL REAL money columns are modelled
as rationals, decimal literals such as 0.01 becoming the exact rational.
Wall-clock timestamp columns are omitted: every ordering the code performs is
by autoincrement id (ORDER BY id DESC), never by timestamp.
-/

/-- Row of the `users` table (columns: name, email, password, profile_pic,
bio, watch_hours, earnings). -/
structure UserRow where
  name : String
  email : String
  password : String
  profile_pic : String
  bio : String
  watch_hours : Nat
  earnings : ℚ
deriving DecidableEq

/-- Row of the `posts` table; `reactions` is the parsed `reactions_json`
dictionary, kept as an association list like a JSON object. -/
structure PostRow where
  id : Nat
  author_email : String
  author_name : String
  profile_pic : String
  text : String
  file_url : String
  reactions : List (String × Nat)
  comments_count : Nat
deriving DecidableEq

/-- Row of the `user_reactions` table: one row per (user, post), with a
UNIQUE(user_email, post_id) constraint in the schema. -/
structure ReactionRow where
  user_email : String
  post_id : Nat
  emoji : String
deriving DecidableEq

/-- Row of the `followers` table: `user_email` is the followed account,
`follower_email` the follower. -/
structure FollowRow where
  user_email : String
  follower_email : String
deriving DecidableEq

/-- Row of the `notifications` table; `id` is the autoincrement key the code
orders by, `seen` the read flag. -/
structure NotificationRow where
  id : Nat
  user_email : String
  text : String
  seen : Bool
deriving DecidableEq

/-- Row of the `messages` table. -/
structure MessageRow where
  sender : String
  recipient : String
  text : String
deriving DecidableEq

/-- Row of the `ads` table. -/
structure AdRow where
  id : Nat
  title : String
  owner_email : String
  budget : ℚ
  impressions : Nat
  clicks : Nat
deriving DecidableEq

/-- The whole persistent store: every table of init_db, plus the next
autoincrement id of each table whose generated ids are observable. -/
structure DB where
  users : List UserRow
  posts : List PostRow
  user_reactions : List ReactionRow
  followers : List FollowRow
  notifications : List NotificationRow
  messages : List MessageRow
  ads : List AdRow
  next_post_id : Nat
  next_notif_id : Nat
  next_ad_id : Nat
deriving DecidableEq

/-- Empty database as produced by init_db: empty tables, autoincrement
counters starting at 1. -/
def DB.empty : DB :=
  ⟨[], [], [], [], [], [], [], 1, 1, 1⟩

/-- Python dict lookup `d.get(k, 0)` on a parsed reactions JSON object. -/
def jget (d : List (String × Nat)) (k : String) : Nat :=
  match d.find? (fun kv => kv.1 == k) with
  | some kv => kv.2
  | none => 0

/-- Python dict assignment `d[k] = v`: replace the value of an existing key,
else append the new key (dicts keep insertion order). -/
def jset : List (String × Nat) → String → Nat → List (String × Nat)
  | [], k, v => [(k, v)]
  | kv :: rest, k, v =>
    if kv.1 == k then (k, v) :: rest else kv :: jset rest k v

/-- The reaction dictionary a new post starts with. -/
def initialReactions : List (String × Nat) :=
  [("👍", 0), ("❤️", 0), ("😂", 0)]

/-- Python `str.strip()` on the character list: drop leading and trailing
whitespace. -/
def stripChars (l : List Char) : List Char :=
  ((l.dropWhile Char.isWhitespace).reverse.dropWhile Char.isWhitespace).reverse

/-- Email normalization done by signup and login: `.strip().lower()`. -/
def normEmail (e : String) : String :=
  ⟨(stripChars e.data).map Char.toLower⟩

/-- `INSERT INTO notifications (user_email, text, timestamp)`: appends a row
with the next autoincrement id, seen = 0. -/
def notifInsert (db : DB) (target text : String) : DB :=
  { db with
    notifications := db.notifications ++ [⟨db.next_notif_id, target, text, false⟩],
    next_notif_id := db.next_notif_id + 1 }

/-- The user object returned by signup/login: the selected columns, which
never include the password. -/
structure PublicUser where
  name : String
  email : String
  profile_pic : String
  bio : String
  watch_hours : Nat
  earnings : ℚ
deriving DecidableEq

/-- POST /api/signup: normalizes the email, rejects a missing email or
password, stores the password string verbatim in the users table, and
answers with a user object without the password. -/
def api_signup (db : DB) (name email password profile_pic : String) :
    Except String (DB × PublicUser) :=
  if normEmail email == "" || password == "" then
    .error "email+password required"
  else if db.users.any (fun u => u.email == normEmail email) then
    .error "User exists"
  else
    .ok ({ db with
            users := db.users ++
              [⟨name, normEmail email, password, profile_pic, "", 0, 0⟩] },
         ⟨name, normEmail email, profile_pic, "", 0, 0⟩)

/-- POST /api/login: `SELECT ... FROM users WHERE email=? AND password=?` —
a raw equality comparison of the stored and supplied password strings. -/
def api_login (db : DB) (email password : String) : Option PublicUser :=
  (db.users.find? (fun u => u.email == normEmail email && u.password == password)).map
    (fun u => ⟨u.name, u.email, u.profile_pic, u.bio, u.watch_hours, u.earnings⟩)

/-- POST /api/posts: inserts a post with the next autoincrement id, the
initial reactions JSON and comments_count 0, and returns the row. -/
def api_posts_create (db : DB)
    (author_email author_name profile_pic text file_url : String) : DB × PostRow :=
  let p : PostRow :=
    ⟨db.next_post_id, author_email, author_name, profile_pic, text, file_url,
      initialReactions, 0⟩
  ({ db with posts := db.posts ++ [p], next_post_id := db.next_post_id + 1 }, p)

/-- The UNIQUE(user_email, post_id) key test used by the react queries. -/
def matchKey (u : String) (pid : Nat) (r : ReactionRow) : Bool :=
  r.user_email == u && r.post_id == pid

/-- `INSERT OR REPLACE INTO user_reactions`: SQLite deletes any row that
conflicts on the UNIQUE(user_email, post_id) key, then inserts the new row. -/
def insertOrReplace (rows : List ReactionRow) (r : ReactionRow) : List ReactionRow :=
  rows.filter (fun s => !(matchKey r.user_email r.post_id s)) ++ [r]

/-- `reactions[emoji] = reactions.get(emoji, 0) + 1`. -/
def bumpReaction (reactions : List (String × Nat)) (emoji : String) :
    List (String × Nat) :=
  jset reactions emoji (jget reactions emoji + 1)

/-- `reactions[p] = max(0, reactions.get(p, 0) - 1)` (Nat subtraction is
exactly the floor at 0). -/
def dropReaction (reactions : List (String × Nat)) (p : String) :
    List (String × Nat) :=
  jset reactions p (jget reactions p - 1)

/-- Delete the edge of the (user, post) pair:
`DELETE FROM user_reactions WHERE user_email=? AND post_id=?`. -/
def deleteEdge (rows : List ReactionRow) (user_email : String) (post_id : Nat) :
    List ReactionRow :=
  rows.filter (fun r => !(matchKey user_email post_id r))

/-- Common tail of the react endpoint once the new counts and the remaining
edge rows are known: insert the new edge, store the updated reactions JSON on
the post, and notify the author unless the caller is the author. -/
def reactWrite (db : DB) (row : PostRow) (user_email : String) (post_id : Nat)
    (emoji : String) (reactions' : List (String × Nat)) (rows : List ReactionRow) :
    DB :=
  if row.author_email == user_email then
    { db with
      posts := db.posts.map (fun p =>
        if p.id == post_id then { p with reactions := reactions' } else p),
      user_reactions := insertOrReplace rows ⟨user_email, post_id, emoji⟩ }
  else
    notifInsert
      { db with
        posts := db.posts.map (fun p =>
          if p.id == post_id then { p with reactions := reactions' } else p),
        user_reactions := insertOrReplace rows ⟨user_email, post_id, emoji⟩ }
      row.author_email (emoji ++ " reaction on your post")

/-- POST /api/react: 404 when the post is missing; no-op when the caller
already reacted with the same emoji (a true equality test).  The
decrement-and-DELETE step is guarded by Python truthiness — `if prev_emoji:`
is false both for a missing row (None) and for a stored empty-string emoji —
so with a prior empty-string emoji the code skips the decrement and the
DELETE, though the edge is still replaced by the INSERT OR REPLACE on the
UNIQUE key.  Then the new edge is inserted, the new emoji count incremented
(with the previous count decremented, floored at 0 by Nat subtraction, only
when the prior emoji was non-empty), the updated JSON stored on the post,
and the author notified unless the caller is the author. -/
def api_react_post (db : DB) (user_email : String) (post_id : Nat) (emoji : String) :
    Except String (DB × List (String × Nat)) :=
  match db.posts.find? (fun p => p.id == post_id) with
  | none => .error "Post not found"
  | some row =>
    match (db.user_reactions.find? (matchKey user_email post_id)).map
        (fun r => r.emoji) with
    | some p =>
      if p == emoji then
        .ok (db, row.reactions)
      else if p == "" then
        .ok (reactWrite db row user_email post_id emoji
              (bumpReaction row.reactions emoji) db.user_reactions,
            bumpReaction row.reactions emoji)
      else
        .ok (reactWrite db row user_email post_id emoji
              (bumpReaction (dropReaction row.reactions p) emoji)
              (deleteEdge db.user_reactions user_email post_id),
            bumpReaction (dropReaction row.reactions p) emoji)
    | none =>
      .ok (reactWrite db row user_email post_id emoji
            (bumpReaction row.reactions emoji) db.user_reactions,
          bumpReaction row.reactions emoji)

/-- GET /api/user_reaction: the current reaction edge of a (user, post)
pair, if any. -/
def edgeOf (db : DB) (u : String) (pid : Nat) : Option String :=
  (db.user_reactions.find? (matchKey u pid)).map (fun r => r.emoji)

/-- POST /api/follow: no self-follow check; if the (target, follower) row
exists delete it (unfollow), else insert it and notify the target (follow).
Returns the action string of the JSON response. -/
def api_follow (db : DB) (follower target : String) : DB × String :=
  if db.followers.any (fun r => r.user_email == target && r.follower_email == follower) then
    ({ db with
        followers := db.followers.filter
          (fun r => !(r.user_email == target && r.follower_email == follower)) },
      "unfollowed")
  else
    (notifInsert
        { db with followers := db.followers ++ [⟨target, follower⟩] }
        target (follower ++ " started following you"),
      "followed")

/-- GET /api/is_following. -/
def api_is_following (db : DB) (f t : String) : Bool :=
  db.followers.any (fun r => r.user_email == t && r.follower_email == f)

/-- `UPDATE users SET watch_hours = watch_hours + 1 WHERE email=?`, applied
to one row. -/
def bumpWatch (author : String) (u : UserRow) : UserRow :=
  if u.email == author then { u with watch_hours := u.watch_hours + 1 } else u

/-- POST /api/watch: 404 when the post is missing; otherwise increments the
watch_hours of the post author by 1 — with no check that the viewer differs
from the author — inserts a notification, and returns the new counter. -/
def api_watch (db : DB) (viewer : String) (post_id : Nat) :
    Except String (DB × Nat) :=
  match db.posts.find? (fun p => p.id == post_id) with
  | none => .error "Post not found"
  | some r =>
    .ok (notifInsert { db with users := db.users.map (bumpWatch r.author_email) }
          r.author_email ("Your video was watched by " ++ viewer),
        (((db.users.map (bumpWatch r.author_email)).find?
            (fun u => u.email == r.author_email)).map (fun u => u.watch_hours)).getD 0)

/-- POST /api/ads: create an ad with impressions = clicks = 0. -/
def api_ads_create (db : DB) (title owner : String) (budget : ℚ) : DB :=
  { db with
    ads := db.ads ++ [⟨db.next_ad_id, title, owner, budget, 0, 0⟩],
    next_ad_id := db.next_ad_id + 1 }

/-- `UPDATE users SET earnings = earnings + 0.01 WHERE email=?`, applied to
one row. -/
def creditEarnings (author : String) (u : UserRow) : UserRow :=
  if u.email == author then { u with earnings := u.earnings + 1/100 } else u

/-- POST /api/ads/impression: 404 when the post is missing; otherwise adds
0.01 to the earnings of the post author.  The ads table is never read or
written by this endpoint. -/
def api_ads_impression (db : DB) (post_id : Nat) (viewer : String) :
    Except String DB :=
  match db.posts.find? (fun p => p.id == post_id) with
  | none => .error "Post not found"
  | some r =>
    .ok { db with users := db.users.map (creditEarnings r.author_email) }

/-- POST /api/messages: append the message and notify the recipient. -/
def api_messages_post (db : DB) (sender recipient text : String) : DB :=
  notifInsert
    { db with messages := db.messages ++ [⟨sender, recipient, text⟩] }
    recipient ("New message from " ++ sender)

/-- POST /api/update_bio. -/
def api_update_bio (db : DB) (email bio : String) : DB :=
  { db with users := db.users.map (fun u =>
      if u.email == email then { u with bio := bio } else u) }

/-- Insert a notification row into a list sorted by descending id. -/
def insertByIdDesc (n : NotificationRow) : List NotificationRow → List NotificationRow
  | [] => [n]
  | m :: rest => if m.id ≤ n.id then n :: m :: rest else m :: insertByIdDesc n rest

/-- `ORDER BY id DESC` on notification rows. -/
def sortByIdDesc (l : List NotificationRow) : List NotificationRow :=
  l.foldr insertByIdDesc []

/-- GET /api/notifications/<email>: `SELECT ... WHERE user_email=? ORDER BY
id DESC`, with no LIMIT clause. -/
def api_notifications_get (db : DB) (email : String) : List NotificationRow :=
  sortByIdDesc (db.notifications.filter (fun n => n.user_email == email))

/-- The JSON body of GET /api/monetization/<email>. -/
structure MonetizationOut where
  followers : Nat
  watch_hours : Nat
  earnings : ℚ
  status : String
deriving DecidableEq

/-- GET /api/monetization/<email>: zeros for an unknown account, else the
follower row count, stored counters, and the eligibility status. -/
def api_monetization (db : DB) (email : String) : MonetizationOut :=
  match db.users.find? (fun u => u.email == email) with
  | none => ⟨0, 0, 0, "Not Eligible"⟩
  | some r =>
    let followers := (db.followers.filter (fun f => f.user_email == email)).length
    ⟨followers, r.watch_hours, r.earnings,
      if followers ≥ 5000 ∧ r.watch_hours ≥ 1000000 then "Eligible" else "Not Eligible"⟩

/-- One state-mutating call of the public API. -/
inductive Op where
  | signup (name email password profile_pic : String)
  | createPost (author_email author_name profile_pic text file_url : String)
  | react (user_email : String) (post_id : Nat) (emoji : String)
  | follow (follower target : String)
  | watch (viewer : String) (post_id : Nat)
  | impression (post_id : Nat) (viewer : String)
  | message (sender recipient text : String)
  | updateBio (email bio : String)
  | createAd (title owner : String) (budget : ℚ)

/-- State transition of one public call; an error response leaves the store
unchanged. -/
def DB.step (db : DB) : Op → DB
  | .signup n e p pic =>
    match api_signup db n e p pic with
    | .ok (db', _) => db'
    | .error _ => db
  | .createPost a an pic t f => (api_posts_create db a an pic t f).1
  | .react u pid e =>
    match api_react_post db u pid e with
    | .ok (db', _) => db'
    | .error _ => db
  | .follow f t => (api_follow db f t).1
  | .watch v pid =>
    match api_watch db v pid with
    | .ok (db', _) => db'
    | .error _ => db
  | .impression pid v =>
    match api_ads_impression db pid v with
    | .ok db' => db'
    | .error _ => db
  | .message s r t => api_messages_post db s r t
  | .updateBio e b => api_update_bio db e b
  | .createAd t o b => api_ads_create db t o b

/-- The state reached by a sequence of public calls from the empty store. -/
def DB.run (ops : List Op) : DB :=
  ops.foldl DB.step DB.empty

/-- Arguments of one react call, for sequences of reactions. -/
structure ReactCall where
  user_email : String
  post_id : Nat
  emoji : String

/-- Apply one react call, keeping the state on an error response. -/
def reactStep (db : DB) (c : ReactCall) : DB :=
  match api_react_post db c.user_email c.post_id c.emoji with
  | .ok (db', _) => db'
  | .error _ => db

/-- Apply a sequence of react calls. -/
def runReacts (db : DB) (cs : List ReactCall) : DB :=
  cs.foldl reactStep db

/-- The emoji of the last call in the sequence addressing the (user, post)
pair, if any call does. -/
def lastEmojiFor (cs : List ReactCall) (u : String) (pid : Nat) : Option String :=
  ((cs.filter (fun c => c.user_email == u && c.post_id == pid)).getLast?).map
    (fun c => c.emoji)

/-- Watch-hours counter of an account as read back by the endpoints. -/
def watchHoursOf (db : DB) (email : String) : Nat :=
  ((db.users.find? (fun u => u.email == email)).map (fun u => u.watch_hours)).getD 0

/-- Earnings accumulator of an account as read back by the endpoints. -/
def earningsOf (db : DB) (email : String) : ℚ :=
  ((db.users.find? (fun u => u.email == email)).map (fun u => u.earnings)).getD 0

/-! ## Sample states used by witnesses and counterexamples -/

/-- A user row for concrete examples. -/
def aliceU : UserRow := ⟨"Alice", "a@x", "pw", "", "", 0, 0⟩

/-- A post by that user, as created by the posts endpoint. -/
def post1 : PostRow := ⟨1, "a@x", "Alice", "", "hi", "", initialReactions, 0⟩

/-- Store holding one account and one post by that account. -/
def dbSelf : DB := { DB.empty with users := [aliceU], posts := [post1], next_post_id := 2 }

/-- `dbSelf` extended with one well-funded ad. -/
def dbAd : DB := { dbSelf with ads := [⟨1, "ad", "o@x", 5, 0, 0⟩], next_ad_id := 2 }

/-- The store after the sample signup. -/
def dbSigned : DB := { DB.empty with users := [⟨"Alice", "a@x.com", "hunter2", "", "", 0, 0⟩] }

/-- 21 notifications for one account, ids 1..21 in insertion order. -/
def manyNotifs : List NotificationRow :=
  (List.range 21).map (fun i => ⟨i + 1, "a@x", "ping", false⟩)

/-- Store holding those 21 notifications. -/
def dbNotif : DB := { DB.empty with notifications := manyNotifs, next_notif_id := 22 }

/-- The stored reaction-count mapping of a post, as read back by the feed. -/
def reactionsOf (db : DB) (pid : Nat) : List (String × Nat) :=
  ((db.posts.find? (fun p => p.id == pid)).map (fun p => p.reactions)).getD []

/-- The post of `dbSelf` after one thumbs-up by another account. -/
def post1R : PostRow := ⟨1, "a@x", "Alice", "", "hi", "", [("👍", 1), ("❤️", 0), ("😂", 0)], 0⟩

/-- `dbSelf` after account b reacted 👍 to the post: one edge, counts in sync. -/
def dbPrev : DB :=
  { dbSelf with
    user_reactions := [⟨"b@x", 1, "👍"⟩],
    posts := [post1R],
    notifications := [⟨1, "a@x", "👍 reaction on your post", false⟩],
    next_notif_id := 2 }

/-- The UNIQUE(user_email, post_id) table constraint as a predicate on the
modelled rows: no two rows share the (user, post) key. -/
def keyNodup (rows : List ReactionRow) : Prop :=
  rows.Pairwise (fun r s => ¬(r.user_email = s.user_email ∧ r.post_id = s.post_id))

/-- The number of distinct accounts currently holding a reaction edge to the
post. -/
def accountsReacting (db : DB) (pid : Nat) : Nat :=
  ((db.user_reactions.filter (fun r => r.post_id == pid)).map
    (fun r => r.user_email)).dedup.length

/-! ## Shared list lemmas -/

theorem find?_map_pred {α : Type} (f : α → α) (p : α → Bool) (l : List α)
    (h : ∀ a, p (f a) = p a) : (l.map f).find? p = (l.find? p).map f := by
  have hpf : (p ∘ f) = p := funext h
  rw [List.find?_map, hpf]

theorem find?_pred_true {α : Type} (p : α → Bool) (l : List α) (a : α)
    (h : l.find? p = some a) : p a = true :=
  List.find?_some h

theorem bumpWatch_email (a : String) (u : UserRow) : (bumpWatch a u).email = u.email := by
  unfold bumpWatch
  split <;> rfl

theorem creditEarnings_email (a : String) (u : UserRow) :
    (creditEarnings a u).email = u.email := by
  unfold creditEarnings
  split <;> rfl

/-! ## C1: watch accrual -/

/--
C1 (amended): `api_watch` increments the watch_hours of the post author by
exactly 1 on every call, for every viewer — including the author viewing an
own post — and leaves the watch_hours read for every other account unchanged.
-/
theorem watch_increments_unconditionally (db : DB) (viewer : String) (pid : Nat)
    (post : PostRow)
    (hpost : db.posts.find? (fun p => p.id == pid) = some post)
    (hu : ∃ u ∈ db.users, u.email = post.author_email) :
    watchHoursOf (DB.step db (.watch viewer pid)) post.author_email =
      watchHoursOf db post.author_email + 1 ∧
    ∀ email, email ≠ post.author_email →
      watchHoursOf (DB.step db (.watch viewer pid)) email = watchHoursOf db email := by
  have hwatch : api_watch db viewer pid =
      .ok (notifInsert { db with users := db.users.map (bumpWatch post.author_email) }
            post.author_email ("Your video was watched by " ++ viewer),
          (((db.users.map (bumpWatch post.author_email)).find?
              (fun u => u.email == post.author_email)).map (fun u => u.watch_hours)).getD 0) := by
    unfold api_watch
    rw [hpost]
  have hstep : DB.step db (.watch viewer pid) =
      notifInsert { db with users := db.users.map (bumpWatch post.author_email) }
        post.author_email ("Your video was watched by " ++ viewer) := by
    simp only [DB.step, hwatch]
  rw [hstep]
  have husers :
      (notifInsert { db with users := db.users.map (bumpWatch post.author_email) }
        post.author_email ("Your video was watched by " ++ viewer)).users =
      db.users.map (bumpWatch post.author_email) := rfl
  constructor
  · obtain ⟨u0, hmem, heq⟩ := hu
    have hfs : (db.users.find? (fun u => u.email == post.author_email)).isSome :=
      List.find?_isSome.mpr ⟨u0, hmem, by exact beq_iff_eq.mpr heq⟩
    obtain ⟨u1, hu1⟩ := Option.isSome_iff_exists.mp hfs
    have hp1 : (u1.email == post.author_email) = true :=
      find?_pred_true (fun u => u.email == post.author_email) db.users u1 hu1
    unfold watchHoursOf
    rw [husers, find?_map_pred _ _ _ (fun a => by rw [bumpWatch_email]), hu1]
    simp [bumpWatch, hp1]
  · intro email hne
    unfold watchHoursOf
    rw [husers, find?_map_pred _ _ _ (fun a => by rw [bumpWatch_email])]
    cases hf : db.users.find? (fun u => u.email == email) with
    | none => rfl
    | some u0 =>
      have hp0 : (u0.email == email) = true :=
        find?_pred_true (fun u => u.email == email) db.users u0 hf
      have hne0 : (u0.email == post.author_email) = false := by
        have : u0.email = email := by simpa using hp0
        simp [this, hne]
      simp [bumpWatch, hne0]

/-- Witness for C1: a watch call by another viewer on `dbSelf`. -/
theorem watch_increments_unconditionally_witness :
    watchHoursOf (DB.step dbSelf (.watch "b@x" 1)) post1.author_email =
      watchHoursOf dbSelf post1.author_email + 1 ∧
    ∀ email, email ≠ post1.author_email →
      watchHoursOf (DB.step dbSelf (.watch "b@x" 1)) email = watchHoursOf dbSelf email :=
  watch_increments_unconditionally dbSelf "b@x" 1 post1 rfl
    ⟨aliceU, List.mem_singleton.mpr rfl, rfl⟩

/--
C1 counterexample: on a store where the author views the own post, the watch
call still increments watch_hours from 0 to 1, refuting the clause that a
call with the author as viewer changes nothing.
-/
theorem watch_self_view_counterexample :
    watchHoursOf dbSelf "a@x" = 0 ∧
    (api_watch dbSelf "a@x" 1).toOption.map (fun x => watchHoursOf x.1 "a@x") = some 1 :=
  ⟨rfl, rfl⟩

/-! ## C2: ad impressions -/

/--
C2 (amended): a successful `api_ads_impression` call leaves the ads table —
impression counters and budgets included — completely unchanged, and credits
the earnings of the viewed post author by exactly 0.01 (not 0.005), leaving
the earnings read for every other account unchanged.
-/
theorem impression_ignores_ads_credits_author (db : DB) (pid : Nat) (viewer : String)
    (post : PostRow)
    (hpost : db.posts.find? (fun p => p.id == pid) = some post)
    (hu : ∃ u ∈ db.users, u.email = post.author_email) :
    (DB.step db (.impression pid viewer)).ads = db.ads ∧
    (DB.step db (.impression pid viewer)).posts = db.posts ∧
    earningsOf (DB.step db (.impression pid viewer)) post.author_email =
      earningsOf db post.author_email + 1/100 ∧
    ∀ email, email ≠ post.author_email →
      earningsOf (DB.step db (.impression pid viewer)) email = earningsOf db email := by
  have himp : api_ads_impression db pid viewer =
      .ok { db with users := db.users.map (creditEarnings post.author_email) } := by
    unfold api_ads_impression
    rw [hpost]
  have hstep : DB.step db (.impression pid viewer) =
      { db with users := db.users.map (creditEarnings post.author_email) } := by
    simp only [DB.step, himp]
  rw [hstep]
  refine ⟨rfl, rfl, ?_, ?_⟩
  · obtain ⟨u0, hmem, heq⟩ := hu
    have hfs : (db.users.find? (fun u => u.email == post.author_email)).isSome :=
      List.find?_isSome.mpr ⟨u0, hmem, by exact beq_iff_eq.mpr heq⟩
    obtain ⟨u1, hu1⟩ := Option.isSome_iff_exists.mp hfs
    have hp1 : (u1.email == post.author_email) = true :=
      find?_pred_true (fun u => u.email == post.author_email) db.users u1 hu1
    unfold earningsOf
    rw [show ({ db with users := db.users.map (creditEarnings post.author_email) } : DB).users
        = db.users.map (creditEarnings post.author_email) from rfl]
    rw [find?_map_pred _ _ _ (fun a => by rw [creditEarnings_email]), hu1]
    simp [creditEarnings, hp1]
  · intro email hne
    unfold earningsOf
    rw [show ({ db with users := db.users.map (creditEarnings post.author_email) } : DB).users
        = db.users.map (creditEarnings post.author_email) from rfl]
    rw [find?_map_pred _ _ _ (fun a => by rw [creditEarnings_email])]
    cases hf : db.users.find? (fun u => u.email == email) with
    | none => rfl
    | some u0 =>
      have hp0 : (u0.email == email) = true :=
        find?_pred_true (fun u => u.email == email) db.users u0 hf
      have hne0 : (u0.email == post.author_email) = false := by
        have : u0.email = email := by simpa using hp0
        simp [this, hne]
      simp [creditEarnings, hne0]

/-- Witness for C2: an impression on the post of `dbAd`. -/
theorem impression_ignores_ads_credits_author_witness :
    (DB.step dbAd (.impression 1 "b@x")).ads = dbAd.ads ∧
    (DB.step dbAd (.impression 1 "b@x")).posts = dbAd.posts ∧
    earningsOf (DB.step dbAd (.impression 1 "b@x")) post1.author_email =
      earningsOf dbAd post1.author_email + 1/100 ∧
    ∀ email, email ≠ post1.author_email →
      earningsOf (DB.step dbAd (.impression 1 "b@x")) email = earningsOf dbAd email :=
  impression_ignores_ads_credits_author dbAd 1 "b@x" post1 rfl
    ⟨aliceU, List.mem_singleton.mpr rfl, rfl⟩

/--
C2 counterexample: on a store with one eligible ad (budget 5 > 0.01), the
impression call leaves the ad untouched — impressions stay 0, budget stays
5 — and credits the author 0.01 rather than 0.005, refuting the claimed
ad selection, impression increment, budget decrement, and 0.005 credit.
-/
theorem impression_claim_counterexample :
    (api_ads_impression dbAd 1 "b@x").toOption.map (fun d => d.ads) =
      some [⟨1, "ad", "o@x", 5, 0, 0⟩] ∧
    (api_ads_impression dbAd 1 "b@x").toOption.map (fun d => earningsOf d "a@x") =
      some (1/100) ∧
    (1/100 : ℚ) ≠ 1/200 := by
  refine ⟨rfl, ?_, by norm_num⟩
  show some ((0 : ℚ) + 1/100) = some (1/100)
  norm_num

/-! ## C3: credential storage -/

/--
C3 (amended): the service stores the signup password verbatim in the users
table — the stored credential field equals the raw secret — and login
succeeds by raw equality comparison of the stored and supplied secrets; the
password is merely omitted from the signup and login response objects.
-/
theorem signup_stores_password_verbatim (db : DB) (name email password pic : String)
    (db' : DB) (out : PublicUser)
    (hok : api_signup db name email password pic = .ok (db', out)) :
    (∃ u ∈ db'.users, u.email = normEmail email ∧ u.password = password) ∧
    (api_login db' email password).isSome := by
  unfold api_signup at hok
  split at hok
  · cases hok
  · split at hok
    · cases hok
    · simp only [Except.ok.injEq, Prod.mk.injEq] at hok
      obtain ⟨hdb, -⟩ := hok
      subst hdb
      have hmem : (⟨name, normEmail email, password, pic, "", 0, 0⟩ : UserRow) ∈
          db.users ++ [⟨name, normEmail email, password, pic, "", 0, 0⟩] :=
        List.mem_append_right _ (List.mem_singleton.mpr rfl)
      constructor
      · refine ⟨(⟨name, normEmail email, password, pic, "", 0, 0⟩ : UserRow), ?_, rfl, rfl⟩
        exact hmem
      have hfs : ((db.users ++ [(⟨name, normEmail email, password, pic, "", 0, 0⟩ : UserRow)]).find?
          (fun u => u.email == normEmail email && u.password == password)).isSome :=
        List.find?_isSome.mpr
          ⟨⟨name, normEmail email, password, pic, "", 0, 0⟩, hmem, by simp⟩
      obtain ⟨u1, hu1⟩ := Option.isSome_iff_exists.mp hfs
      unfold api_login
      rw [show ({ db with users := db.users ++
            [(⟨name, normEmail email, password, pic, "", 0, 0⟩ : UserRow)] } : DB).users =
          db.users ++ [(⟨name, normEmail email, password, pic, "", 0, 0⟩ : UserRow)] from rfl]
      rw [hu1]
      rfl

/-- Witness for C3 at a concrete signup. -/
theorem signup_stores_password_verbatim_witness :
    (∃ u ∈ dbSigned.users, u.email = normEmail "a@x.com" ∧ u.password = "hunter2") ∧
    (api_login dbSigned "a@x.com" "hunter2").isSome :=
  signup_stores_password_verbatim DB.empty "Alice" "a@x.com" "hunter2" ""
    dbSigned ⟨"Alice", "a@x.com", "", "", 0, 0⟩ rfl

/--
C3 counterexample: after a concrete signup the stored credential field is
exactly the raw supplied secret, refuting the claim that the stored
credential never equals the secret supplied at signup.
-/
theorem plaintext_password_counterexample :
    (api_signup DB.empty "Alice" "a@x.com" "hunter2" "").toOption.map
      (fun x => x.1.users.map (fun u => u.password)) = some ["hunter2"] := rfl

/-! ## C4: self-follow -/

/--
C4 (amended): `api_follow` performs no self-follow check; called with
follower = target = A and no existing (A, A) edge it does not fail — it
reports "followed", inserts the (A, A) edge, and afterwards A is following A.
-/
theorem self_follow_inserts (db : DB) (A : String)
    (h : api_is_following db A A = false) :
    (api_follow db A A).2 = "followed" ∧
    (api_follow db A A).1.followers = db.followers ++ [⟨A, A⟩] ∧
    api_is_following (api_follow db A A).1 A A = true := by
  unfold api_is_following at h
  unfold api_follow
  rw [h]
  refine ⟨rfl, rfl, ?_⟩
  unfold api_is_following notifInsert
  simp [h]

/-- Witness for C4 at a concrete store. -/
theorem self_follow_inserts_witness :
    (api_follow DB.empty "b@x" "b@x").2 = "followed" ∧
    (api_follow DB.empty "b@x" "b@x").1.followers = DB.empty.followers ++ [⟨"b@x", "b@x"⟩] ∧
    api_is_following (api_follow DB.empty "b@x" "b@x").1 "b@x" "b@x" = true :=
  self_follow_inserts DB.empty "b@x" rfl

/--
C4 counterexample: on the empty store, follow("a@x", "a@x") reports
"followed" and creates the self edge, refuting both the claimed SelfFollow
failure and the claimed unchanged follower set.
-/
theorem self_follow_succeeds_counterexample :
    (api_follow DB.empty "a@x" "a@x").2 = "followed" ∧
    (api_follow DB.empty "a@x" "a@x").1.followers = [⟨"a@x", "a@x"⟩] ∧
    api_is_following (api_follow DB.empty "a@x" "a@x").1 "a@x" "a@x" = true :=
  ⟨rfl, rfl, rfl⟩

/-! ## C10: notification listing -/

theorem insertByIdDesc_of_lt (n : NotificationRow) (l : List NotificationRow)
    (h : ∀ m ∈ l, n.id < m.id) : insertByIdDesc n l = l ++ [n] := by
  induction l with
  | nil => rfl
  | cons m rest ih =>
    unfold insertByIdDesc
    rw [if_neg (Nat.not_le.mpr (h m (List.mem_cons_self m rest)))]
    rw [ih (fun x hx => h x (List.mem_cons_of_mem m hx))]
    rfl

theorem sortByIdDesc_of_ascending (l : List NotificationRow)
    (h : l.Pairwise (fun a b => a.id < b.id)) : sortByIdDesc l = l.reverse := by
  induction l with
  | nil => rfl
  | cons a t ih =>
    rw [List.pairwise_cons] at h
    rw [show sortByIdDesc (a :: t) = insertByIdDesc a (sortByIdDesc t) from rfl]
    rw [ih h.2, List.reverse_cons]
    exact insertByIdDesc_of_lt a t.reverse
      (fun m hm => h.1 m (List.mem_reverse.mp hm))

/--
C10 (amended): `api_notifications_get` returns all of the notifications of
the account, ordered newest-first (descending autoincrement id); there is no
page-size cap.
-/
theorem notifications_all_newest_first (db : DB) (email : String)
    (hids : db.notifications.Pairwise (fun a b => a.id < b.id)) :
    api_notifications_get db email =
      (db.notifications.filter (fun n => n.user_email == email)).reverse := by
  unfold api_notifications_get
  exact sortByIdDesc_of_ascending _ (hids.filter _)

/-- Witness for C10 at a concrete store. -/
theorem notifications_all_newest_first_witness :
    api_notifications_get dbNotif "a@x" =
      (dbNotif.notifications.filter (fun n => n.user_email == "a@x")).reverse :=
  notifications_all_newest_first dbNotif "a@x" (by decide)

/--
C10 counterexample: an account with 21 notifications gets all 21 back,
refuting the claimed fixed page-size cap of 20.
-/
theorem notifications_uncapped_counterexample :
    20 < (api_notifications_get dbNotif "a@x").length := by decide

/-! ## Reaction-dictionary lemmas -/

theorem jget_cons (kv : String × Nat) (d : List (String × Nat)) (k : String) :
    jget (kv :: d) k = if kv.1 == k then kv.2 else jget d k := by
  unfold jget
  rw [List.find?_cons]
  cases h : kv.1 == k <;> simp [h]

theorem jset_cons (kv : String × Nat) (d : List (String × Nat)) (k : String) (v : Nat) :
    jset (kv :: d) k v = if kv.1 == k then (k, v) :: d else kv :: jset d k v := rfl

theorem jget_jset_self (d : List (String × Nat)) (k : String) (v : Nat) :
    jget (jset d k v) k = v := by
  induction d with
  | nil => simp [jset, jget_cons]
  | cons kv rest ih =>
    rw [jset_cons]
    cases h : kv.1 == k with
    | true => simp [jget_cons]
    | false => simp [h, jget_cons, ih]

theorem jget_jset_ne (d : List (String × Nat)) (k k' : String) (v : Nat)
    (h : k' ≠ k) : jget (jset d k v) k' = jget d k' := by
  have hkk : (k == k') = false := beq_eq_false_iff_ne.mpr (fun he => h he.symm)
  induction d with
  | nil => simp [jset, jget_cons, hkk, jget]
  | cons kv rest ih =>
    rw [jset_cons]
    cases hc : kv.1 == k with
    | true =>
      have : kv.1 = k := by simpa using hc
      simp [jget_cons, hkk, this]
    | false => simp [hc, jget_cons, ih]

/-! ## React endpoint lemmas -/

theorem reactWrite_posts (db : DB) (row : PostRow) (u : String) (pid : Nat)
    (e : String) (r' : List (String × Nat)) (rows : List ReactionRow) :
    (reactWrite db row u pid e r' rows).posts =
      db.posts.map (fun p => if p.id == pid then { p with reactions := r' } else p) := by
  unfold reactWrite
  split <;> rfl

theorem reactWrite_rows (db : DB) (row : PostRow) (u : String) (pid : Nat)
    (e : String) (r' : List (String × Nat)) (rows : List ReactionRow) :
    (reactWrite db row u pid e r' rows).user_reactions =
      insertOrReplace rows ⟨u, pid, e⟩ := by
  unfold reactWrite
  split <;> rfl

theorem reactWrite_notifications (db : DB) (row : PostRow) (u : String) (pid : Nat)
    (e : String) (r' : List (String × Nat)) (rows : List ReactionRow) :
    (reactWrite db row u pid e r' rows).notifications =
      if row.author_email = u then db.notifications
      else db.notifications ++
        [⟨db.next_notif_id, row.author_email, e ++ " reaction on your post", false⟩] := by
  unfold reactWrite
  by_cases h : row.author_email = u
  · simp [h, notifInsert]
  · have hb : (row.author_email == u) = false := beq_eq_false_iff_ne.mpr h
    simp [h, hb, notifInsert]

theorem reactWrite_users (db : DB) (row : PostRow) (u : String) (pid : Nat)
    (e : String) (r' : List (String × Nat)) (rows : List ReactionRow) :
    (reactWrite db row u pid e r' rows).users = db.users := by
  unfold reactWrite
  split <;> rfl

theorem reactWrite_followers (db : DB) (row : PostRow) (u : String) (pid : Nat)
    (e : String) (r' : List (String × Nat)) (rows : List ReactionRow) :
    (reactWrite db row u pid e r' rows).followers = db.followers := by
  unfold reactWrite
  split <;> rfl

theorem reactWrite_next_post_id (db : DB) (row : PostRow) (u : String) (pid : Nat)
    (e : String) (r' : List (String × Nat)) (rows : List ReactionRow) :
    (reactWrite db row u pid e r' rows).next_post_id = db.next_post_id := by
  unfold reactWrite
  split <;> rfl

theorem find?_posts_update (posts : List PostRow) (pid : Nat) (post : PostRow)
    (counts : List (String × Nat))
    (hpost : posts.find? (fun p => p.id == pid) = some post) :
    (posts.map (fun p => if p.id == pid then { p with reactions := counts } else p)).find?
      (fun p => p.id == pid) = some { post with reactions := counts } := by
  rw [find?_map_pred _ _ _ (fun a => by by_cases h : (a.id == pid) = true <;> simp [h]), hpost]
  have hid : (post.id == pid) = true := find?_pred_true (fun p => p.id == pid) posts post hpost
  have hideq : post.id = pid := by simpa using hid
  simp [hideq]

theorem find?_key_filtered (rows : List ReactionRow) (u : String) (pid : Nat)
    (q : ReactionRow → Bool) :
    ((rows.filter (fun s => !(matchKey u pid s))).filter q).find? (matchKey u pid)
      = none := by
  apply List.find?_eq_none.mpr
  intro x hx
  have hx1 := (List.mem_filter.mp (List.mem_filter.mp hx).1).2
  simp only [Bool.not_eq_true'] at hx1
  simp [hx1]

theorem edgeOf_reactWrite_self (db : DB) (row : PostRow) (u : String) (pid : Nat)
    (e : String) (r' : List (String × Nat)) (rows : List ReactionRow) :
    edgeOf (reactWrite db row u pid e r' rows) u pid = some e := by
  unfold edgeOf
  rw [reactWrite_rows]
  unfold insertOrReplace
  rw [List.find?_append]
  have h1 : (rows.filter (fun s =>
      !(matchKey (ReactionRow.mk u pid e).user_email (ReactionRow.mk u pid e).post_id s))).find?
      (matchKey u pid) = none := by
    apply List.find?_eq_none.mpr
    intro x hx
    have hx1 := (List.mem_filter.mp hx).2
    simp only [Bool.not_eq_true'] at hx1
    simp [hx1]
  rw [h1]
  have h2 : matchKey u pid (ReactionRow.mk u pid e) = true := by simp [matchKey]
  rw [Option.none_or, List.find?_cons_of_pos _ h2]
  rfl

theorem react_noop_of_same (db : DB) (u : String) (pid : Nat) (e : String) (post : PostRow)
    (hpost : db.posts.find? (fun p => p.id == pid) = some post)
    (hedge : edgeOf db u pid = some e) :
    api_react_post db u pid e = .ok (db, post.reactions) := by
  unfold edgeOf at hedge
  obtain ⟨r0, hr0, he0⟩ := Option.map_eq_some'.mp hedge
  simp only [api_react_post, hpost, hr0, Option.map_some', he0, beq_self_eq_true, if_true]

theorem second_call_noop (db : DB) (post : PostRow) (u : String) (pid : Nat) (e : String)
    (counts : List (String × Nat)) (rows : List ReactionRow)
    (hpost : db.posts.find? (fun p => p.id == pid) = some post) :
    api_react_post (reactWrite db post u pid e counts rows) u pid e =
      .ok (reactWrite db post u pid e counts rows, counts) := by
  have hp : (reactWrite db post u pid e counts rows).posts.find? (fun p => p.id == pid)
      = some { post with reactions := counts } := by
    rw [reactWrite_posts]
    exact find?_posts_update db.posts pid post counts hpost
  have he := edgeOf_reactWrite_self db post u pid e counts rows
  unfold edgeOf at he
  obtain ⟨r0, hr0, he0⟩ := Option.map_eq_some'.mp he
  simp only [api_react_post, hp, hr0, Option.map_some', he0, beq_self_eq_true, if_true]

/-! ## C5: changing a reaction -/

/--
C5 (amended): when the caller has a prior reaction with a different emoji,
the react call increments the requested emoji count by 1, leaves every other
emoji count unchanged, replaces the edge of the pair with the requested
emoji, and appends a notification to the post author exactly when the caller
is not the author.  The prior emoji count is decremented by 1 (floored at 0
by the Nat subtraction) only when the stored prior emoji is non-empty: the
guard at src/app.py:734 tests the truthiness of prev_emoji, which is false
for the empty string, so a stored empty-string reaction is never
decremented and its count stays unchanged.
-/
theorem react_change_updates (db : DB) (u : String) (pid : Nat) (e p0 : String)
    (post : PostRow)
    (hpost : db.posts.find? (fun p => p.id == pid) = some post)
    (hprev : edgeOf db u pid = some p0)
    (hne : p0 ≠ e) :
    (p0 ≠ "" → jget (reactionsOf (DB.step db (.react u pid e)) pid) p0 =
      jget (reactionsOf db pid) p0 - 1) ∧
    (p0 = "" → jget (reactionsOf (DB.step db (.react u pid e)) pid) p0 =
      jget (reactionsOf db pid) p0) ∧
    jget (reactionsOf (DB.step db (.react u pid e)) pid) e =
      jget (reactionsOf db pid) e + 1 ∧
    (∀ e', e' ≠ p0 → e' ≠ e →
      jget (reactionsOf (DB.step db (.react u pid e)) pid) e' =
        jget (reactionsOf db pid) e') ∧
    edgeOf (DB.step db (.react u pid e)) u pid = some e ∧
    (DB.step db (.react u pid e)).notifications =
      (if post.author_email = u then db.notifications
       else db.notifications ++
         [⟨db.next_notif_id, post.author_email, e ++ " reaction on your post", false⟩]) := by
  unfold edgeOf at hprev
  obtain ⟨r0, hr0, he0⟩ := Option.map_eq_some'.mp hprev
  have hbe : (p0 == e) = false := beq_eq_false_iff_ne.mpr hne
  have hold : reactionsOf db pid = post.reactions := by
    unfold reactionsOf
    rw [hpost]
    rfl
  by_cases hp0 : p0 = ""
  · have hbe2 : (p0 == "") = true := beq_iff_eq.mpr hp0
    have hcall : api_react_post db u pid e =
        .ok (reactWrite db post u pid e (bumpReaction post.reactions e)
              db.user_reactions,
            bumpReaction post.reactions e) := by
      unfold api_react_post
      rw [hpost, hr0]
      simp only [Option.map_some', he0, hbe, Bool.false_eq_true, if_false, hbe2, if_true]
    have hstep : DB.step db (.react u pid e) =
        reactWrite db post u pid e (bumpReaction post.reactions e)
          db.user_reactions := by
      simp only [DB.step, hcall]
    have hnew : reactionsOf (DB.step db (.react u pid e)) pid =
        bumpReaction post.reactions e := by
      rw [hstep]
      unfold reactionsOf
      rw [reactWrite_posts, find?_posts_update db.posts pid post _ hpost]
      rfl
    rw [hnew, hold]
    refine ⟨?_, ?_, ?_, ?_, ?_, ?_⟩
    · intro hc
      exact absurd hp0 hc
    · intro _
      unfold bumpReaction
      rw [jget_jset_ne _ _ _ _ hne]
    · unfold bumpReaction
      rw [jget_jset_self]
    · intro e' _ h2
      unfold bumpReaction
      rw [jget_jset_ne _ _ _ _ h2]
    · rw [hstep]
      exact edgeOf_reactWrite_self db post u pid e _ _
    · rw [hstep]
      exact reactWrite_notifications db post u pid e _ _
  · have hbe2 : (p0 == "") = false := beq_eq_false_iff_ne.mpr hp0
    have hcall : api_react_post db u pid e =
        .ok (reactWrite db post u pid e
              (bumpReaction (dropReaction post.reactions p0) e)
              (deleteEdge db.user_reactions u pid),
            bumpReaction (dropReaction post.reactions p0) e) := by
      unfold api_react_post
      rw [hpost, hr0]
      simp only [Option.map_some', he0, hbe, hbe2, Bool.false_eq_true, if_false]
    have hstep : DB.step db (.react u pid e) =
        reactWrite db post u pid e (bumpReaction (dropReaction post.reactions p0) e)
          (deleteEdge db.user_reactions u pid) := by
      simp only [DB.step, hcall]
    have hnew : reactionsOf (DB.step db (.react u pid e)) pid =
        bumpReaction (dropReaction post.reactions p0) e := by
      rw [hstep]
      unfold reactionsOf
      rw [reactWrite_posts, find?_posts_update db.posts pid post _ hpost]
      rfl
    rw [hnew, hold]
    refine ⟨?_, ?_, ?_, ?_, ?_, ?_⟩
    · intro _
      unfold bumpReaction
      rw [jget_jset_ne _ _ _ _ hne]
      unfold dropReaction
      rw [jget_jset_self]
    · intro hc
      exact absurd hc hp0
    · unfold bumpReaction
      rw [jget_jset_self]
      unfold dropReaction
      rw [jget_jset_ne _ _ _ _ (Ne.symm hne)]
    · intro e' h1 h2
      unfold bumpReaction
      rw [jget_jset_ne _ _ _ _ h2]
      unfold dropReaction
      rw [jget_jset_ne _ _ _ _ h1]
    · rw [hstep]
      exact edgeOf_reactWrite_self db post u pid e _ _
    · rw [hstep]
      exact reactWrite_notifications db post u pid e _ _

/-- Witness for C5: account b switches a 👍 reaction to ❤️ on the post of
account a. -/
theorem react_change_updates_witness :
    (("👍" : String) ≠ "" →
      jget (reactionsOf (DB.step dbPrev (.react "b@x" 1 "❤️")) 1) "👍" =
        jget (reactionsOf dbPrev 1) "👍" - 1) ∧
    (("👍" : String) = "" →
      jget (reactionsOf (DB.step dbPrev (.react "b@x" 1 "❤️")) 1) "👍" =
        jget (reactionsOf dbPrev 1) "👍") ∧
    jget (reactionsOf (DB.step dbPrev (.react "b@x" 1 "❤️")) 1) "❤️" =
      jget (reactionsOf dbPrev 1) "❤️" + 1 ∧
    (∀ e', e' ≠ "👍" → e' ≠ "❤️" →
      jget (reactionsOf (DB.step dbPrev (.react "b@x" 1 "❤️")) 1) e' =
        jget (reactionsOf dbPrev 1) e') ∧
    edgeOf (DB.step dbPrev (.react "b@x" 1 "❤️")) "b@x" 1 = some "❤️" ∧
    (DB.step dbPrev (.react "b@x" 1 "❤️")).notifications =
      (if post1R.author_email = "b@x" then dbPrev.notifications
       else dbPrev.notifications ++
         [⟨dbPrev.next_notif_id, post1R.author_email, "❤️" ++ " reaction on your post", false⟩]) :=
  react_change_updates dbPrev "b@x" 1 "❤️" "👍" post1R rfl rfl (by decide)

/-- Counterexample to the unconditional decrement of C5: from the empty
store, create a post, react with the empty-string emoji, then switch to 👍.
The prior stored emoji is the empty string, a different emoji than the
request, and its count is 1 before the call; the claim demands it drop to
0, but `if prev_emoji:` at src/app.py:734 is false for the empty string and
the count stays 1. -/
theorem react_empty_prior_counterexample :
    edgeOf (DB.run [.createPost "a@x" "A" "" "hi" "", .react "b@x" 1 ""]) "b@x" 1 =
      some "" ∧
    jget (reactionsOf (DB.run [.createPost "a@x" "A" "" "hi" "",
      .react "b@x" 1 ""]) 1) "" = 1 ∧
    jget (reactionsOf (DB.run [.createPost "a@x" "A" "" "hi" "",
      .react "b@x" 1 "", .react "b@x" 1 "👍"]) 1) "" = 1 :=
  ⟨rfl, rfl, rfl⟩

/-! ## C6: same-emoji no-op and idempotence -/

/--
C6: when the existing reaction of the caller on the post equals the
requested emoji, the react call returns the stored counts and the store
completely unchanged — no counts, edges or notifications move — and,
consequently, any successful react call followed by the identical call is
idempotent: the second call returns the exact same state and counts.
-/
theorem react_same_noop_and_idempotent (db : DB) (u : String) (pid : Nat) (e : String)
    (post : PostRow)
    (hpost : db.posts.find? (fun p => p.id == pid) = some post) :
    (edgeOf db u pid = some e → api_react_post db u pid e = .ok (db, post.reactions)) ∧
    ∀ db₁ c₁, api_react_post db u pid e = .ok (db₁, c₁) →
      api_react_post db₁ u pid e = .ok (db₁, c₁) := by
  constructor
  · intro hedge
    exact react_noop_of_same db u pid e post hpost hedge
  · intro db₁ c₁ h
    unfold api_react_post at h
    rw [hpost] at h
    cases hr : db.user_reactions.find? (matchKey u pid) with
    | none =>
      rw [hr] at h
      simp only [Option.map_none'] at h
      simp only [Except.ok.injEq, Prod.mk.injEq] at h
      obtain ⟨h1, h2⟩ := h
      subst h1
      subst h2
      exact second_call_noop db post u pid e _ _ hpost
    | some r0 =>
      rw [hr] at h
      simp only [Option.map_some'] at h
      cases hpe : r0.emoji == e with
      | true =>
        rw [hpe] at h
        simp only [if_true] at h
        simp only [Except.ok.injEq, Prod.mk.injEq] at h
        obtain ⟨h1, h2⟩ := h
        subst h1
        subst h2
        apply react_noop_of_same db u pid e post hpost
        unfold edgeOf
        rw [hr]
        simp [beq_iff_eq.mp hpe]
      | false =>
        rw [hpe] at h
        simp only [Bool.false_eq_true, if_false] at h
        cases hpe2 : r0.emoji == "" with
        | true =>
          rw [hpe2] at h
          simp only [if_true] at h
          simp only [Except.ok.injEq, Prod.mk.injEq] at h
          obtain ⟨h1, h2⟩ := h
          subst h1
          subst h2
          exact second_call_noop db post u pid e _ _ hpost
        | false =>
          rw [hpe2] at h
          simp only [Bool.false_eq_true, if_false] at h
          simp only [Except.ok.injEq, Prod.mk.injEq] at h
          obtain ⟨h1, h2⟩ := h
          subst h1
          subst h2
          exact second_call_noop db post u pid e _ _ hpost

/-- Witness for C6: b already reacted 👍; reacting 👍 again is the identity. -/
theorem react_same_noop_and_idempotent_witness :
    (edgeOf dbPrev "b@x" 1 = some "👍" →
      api_react_post dbPrev "b@x" 1 "👍" = .ok (dbPrev, post1R.reactions)) ∧
    ∀ db₁ c₁, api_react_post dbPrev "b@x" 1 "👍" = .ok (db₁, c₁) →
      api_react_post db₁ "b@x" 1 "👍" = .ok (db₁, c₁) :=
  react_same_noop_and_idempotent dbPrev "b@x" 1 "👍" post1R rfl

/-! ## C9: follow toggle and follower count -/

theorem api_follow_of_following (db : DB) (A B : String)
    (h : api_is_following db A B = true) :
    api_follow db A B =
      ({ db with
          followers := db.followers.filter
            (fun r => !(r.user_email == B && r.follower_email == A)) },
        "unfollowed") := by
  unfold api_is_following at h
  unfold api_follow
  rw [if_pos h]

theorem api_follow_of_not_following (db : DB) (A B : String)
    (h : api_is_following db A B = false) :
    api_follow db A B =
      (notifInsert { db with followers := db.followers ++ [⟨B, A⟩] } B
        (A ++ " started following you"), "followed") := by
  unfold api_is_following at h
  unfold api_follow
  rw [if_neg (by simp [h])]

/--
C9: for distinct accounts A and B, follow(A, B) toggles — an existing edge
is deleted and the call reports unfollowed with no new notification, an
absent edge is inserted with a notification to B and the call reports
followed; two calls starting from not-following return the follower table to
its prior state; and the monetization follower count of B equals the number
of distinct accounts currently following B.
-/
theorem follow_toggle (db : DB) (A B : String)
    (hAB : A ≠ B)
    (hnodup : db.followers.Pairwise (fun r s =>
      ¬(r.user_email = s.user_email ∧ r.follower_email = s.follower_email)))
    (hB : ∃ u ∈ db.users, u.email = B) :
    (api_is_following db A B = true →
       (api_follow db A B).2 = "unfollowed" ∧
       (api_follow db A B).1.followers =
         db.followers.filter (fun r => !(r.user_email == B && r.follower_email == A)) ∧
       api_is_following (api_follow db A B).1 A B = false ∧
       (api_follow db A B).1.notifications = db.notifications) ∧
    (api_is_following db A B = false →
       (api_follow db A B).2 = "followed" ∧
       (api_follow db A B).1.followers = db.followers ++ [⟨B, A⟩] ∧
       api_is_following (api_follow db A B).1 A B = true ∧
       (api_follow db A B).1.notifications = db.notifications ++
         [⟨db.next_notif_id, B, A ++ " started following you", false⟩]) ∧
    (api_is_following db A B = false →
       (api_follow (api_follow db A B).1 A B).1.followers = db.followers ∧
       api_is_following (api_follow (api_follow db A B).1 A B).1 A B = false) ∧
    (api_monetization db B).followers =
      ((db.followers.filter (fun r => r.user_email == B)).map
        (fun r => r.follower_email)).dedup.length := by
  refine ⟨?_, ?_, ?_, ?_⟩
  · intro h
    rw [api_follow_of_following db A B h]
    refine ⟨rfl, rfl, ?_, rfl⟩
    unfold api_is_following
    apply List.any_eq_false.mpr
    intro x hx
    have hx2 := (List.mem_filter.mp hx).2
    simp only [Bool.not_eq_true'] at hx2
    simp [hx2]
  · intro h
    rw [api_follow_of_not_following db A B h]
    refine ⟨rfl, rfl, ?_, rfl⟩
    unfold api_is_following notifInsert
    simp
  · intro h
    have hall : ∀ r ∈ db.followers,
        (r.user_email == B && r.follower_email == A) = false := by
      intro r hr
      have := List.any_eq_false.mp h r hr
      simpa using this
    rw [api_follow_of_not_following db A B h]
    have hfollowing : api_is_following
        (notifInsert { db with followers := db.followers ++ [⟨B, A⟩] } B
          (A ++ " started following you")) A B = true := by
      unfold api_is_following notifInsert
      simp
    constructor
    · rw [api_follow_of_following _ A B hfollowing]
      show ((notifInsert { db with followers := db.followers ++ [⟨B, A⟩] } B
          (A ++ " started following you")).followers.filter
          (fun r => !(r.user_email == B && r.follower_email == A))) = db.followers
      rw [show (notifInsert { db with followers := db.followers ++ [⟨B, A⟩] } B
          (A ++ " started following you")).followers = db.followers ++ [⟨B, A⟩] from rfl]
      rw [List.filter_append]
      have h1 : ([(⟨B, A⟩ : FollowRow)].filter
          (fun r => !(r.user_email == B && r.follower_email == A))) = [] := by simp
      have h2 : (db.followers.filter
          (fun r => !(r.user_email == B && r.follower_email == A))) = db.followers := by
        apply List.filter_eq_self.mpr
        intro r hr
        simp [hall r hr]
      rw [h1, h2, List.append_nil]
    · rw [api_follow_of_following _ A B hfollowing]
      unfold api_is_following
      apply List.any_eq_false.mpr
      intro x hx
      have hx2 := (List.mem_filter.mp hx).2
      simp only [Bool.not_eq_true'] at hx2
      simp [hx2]
  · obtain ⟨u0, hmem, heq⟩ := hB
    have hfs : (db.users.find? (fun u => u.email == B)).isSome :=
      List.find?_isSome.mpr ⟨u0, hmem, by exact beq_iff_eq.mpr heq⟩
    obtain ⟨u1, hu1⟩ := Option.isSome_iff_exists.mp hfs
    unfold api_monetization
    rw [hu1]
    show (db.followers.filter (fun f => f.user_email == B)).length = _
    have hnd : ((db.followers.filter (fun r => r.user_email == B)).map
        (fun r => r.follower_email)).Nodup := by
      unfold List.Nodup
      rw [List.pairwise_map]
      apply List.Pairwise.imp_of_mem ?_ (hnodup.filter (fun r => r.user_email == B))
      intro a b ha hb hr hfe
      have ha2 : a.user_email = B := by simpa using (List.mem_filter.mp ha).2
      have hb2 : b.user_email = B := by simpa using (List.mem_filter.mp hb).2
      exact hr ⟨ha2.trans hb2.symm, hfe⟩
    rw [List.dedup_eq_self.mpr hnd, List.length_map]

/-- Witness for C9: account b toggling a follow of account a on `dbSelf`. -/
theorem follow_toggle_witness :
    (api_is_following dbSelf "b@x" "a@x" = true →
       (api_follow dbSelf "b@x" "a@x").2 = "unfollowed" ∧
       (api_follow dbSelf "b@x" "a@x").1.followers =
         dbSelf.followers.filter
           (fun r => !(r.user_email == "a@x" && r.follower_email == "b@x")) ∧
       api_is_following (api_follow dbSelf "b@x" "a@x").1 "b@x" "a@x" = false ∧
       (api_follow dbSelf "b@x" "a@x").1.notifications = dbSelf.notifications) ∧
    (api_is_following dbSelf "b@x" "a@x" = false →
       (api_follow dbSelf "b@x" "a@x").2 = "followed" ∧
       (api_follow dbSelf "b@x" "a@x").1.followers = dbSelf.followers ++ [⟨"a@x", "b@x"⟩] ∧
       api_is_following (api_follow dbSelf "b@x" "a@x").1 "b@x" "a@x" = true ∧
       (api_follow dbSelf "b@x" "a@x").1.notifications = dbSelf.notifications ++
         [⟨dbSelf.next_notif_id, "a@x", "b@x" ++ " started following you", false⟩]) ∧
    (api_is_following dbSelf "b@x" "a@x" = false →
       (api_follow (api_follow dbSelf "b@x" "a@x").1 "b@x" "a@x").1.followers =
         dbSelf.followers ∧
       api_is_following
         (api_follow (api_follow dbSelf "b@x" "a@x").1 "b@x" "a@x").1 "b@x" "a@x" = false) ∧
    (api_monetization dbSelf "a@x").followers =
      ((dbSelf.followers.filter (fun r => r.user_email == "a@x")).map
        (fun r => r.follower_email)).dedup.length :=
  follow_toggle dbSelf "b@x" "a@x" (by decide) List.Pairwise.nil
    ⟨aliceU, List.mem_singleton.mpr rfl, rfl⟩

/-! ## C7: at most one edge per pair; last emoji wins -/


theorem find?_filter_of_imp {α : Type} (p q : α → Bool) (l : List α)
    (h : ∀ x, p x = true → q x = true) : (l.filter q).find? p = l.find? p := by
  induction l with
  | nil => rfl
  | cons a t ih =>
    rw [List.filter_cons]
    cases hq : q a with
    | false =>
      have hpa : p a = false := by
        cases hpa : p a with
        | false => rfl
        | true => rw [h a hpa] at hq; cases hq
      simp only [Bool.false_eq_true, if_false, List.find?_cons, hpa]
      exact ih
    | true =>
      simp only [if_true, List.find?_cons]
      cases hpa : p a with
      | false => exact ih
      | true => rfl

theorem keyNodup_filter (rows : List ReactionRow) (p : ReactionRow → Bool)
    (h : keyNodup rows) : keyNodup (rows.filter p) :=
  h.filter p

theorem keyNodup_insertOrReplace (rows : List ReactionRow) (r : ReactionRow)
    (h : keyNodup rows) : keyNodup (insertOrReplace rows r) := by
  unfold insertOrReplace keyNodup
  rw [List.pairwise_append]
  refine ⟨h.filter _, List.pairwise_singleton _ _, ?_⟩
  intro a ha b hb hab
  have ha2 := (List.mem_filter.mp ha).2
  rw [List.mem_singleton] at hb
  subst hb
  simp only [Bool.not_eq_true'] at ha2
  unfold matchKey at ha2
  rw [hab.1, hab.2] at ha2
  simp at ha2

theorem reactStep_cases (db : DB) (c : ReactCall) :
    reactStep db c = db ∨
    ∃ post counts rows, db.posts.find? (fun p => p.id == c.post_id) = some post ∧
      (rows = db.user_reactions ∨
        rows = deleteEdge db.user_reactions c.user_email c.post_id) ∧
      reactStep db c = reactWrite db post c.user_email c.post_id c.emoji counts rows := by
  unfold reactStep api_react_post
  cases hp : db.posts.find? (fun p => p.id == c.post_id) with
  | none => left; rfl
  | some post =>
    cases hr : db.user_reactions.find? (matchKey c.user_email c.post_id) with
    | none =>
      right
      exact ⟨post, bumpReaction post.reactions c.emoji, db.user_reactions, rfl,
        Or.inl rfl, by simp only [Option.map_none']⟩
    | some r0 =>
      cases hb : r0.emoji == c.emoji with
      | true => left; simp only [Option.map_some', hb, if_true]
      | false =>
        cases hb2 : r0.emoji == "" with
        | true =>
          right
          exact ⟨post, bumpReaction post.reactions c.emoji, db.user_reactions, rfl,
            Or.inl rfl,
            by simp only [Option.map_some', hb, Bool.false_eq_true, if_false, hb2, if_true]⟩
        | false =>
          right
          exact ⟨post, bumpReaction (dropReaction post.reactions r0.emoji) c.emoji,
            deleteEdge db.user_reactions c.user_email c.post_id, rfl, Or.inr rfl,
            by simp only [Option.map_some', hb, Bool.false_eq_true, if_false, hb2]⟩

theorem reactStep_keyNodup (db : DB) (c : ReactCall)
    (h : keyNodup db.user_reactions) : keyNodup (reactStep db c).user_reactions := by
  rcases reactStep_cases db c with heq | ⟨post, counts, rows, hp, hrows, heq⟩
  · rw [heq]; exact h
  · rw [heq, reactWrite_rows]
    apply keyNodup_insertOrReplace
    rcases hrows with h1 | h1
    · rw [h1]; exact h
    · rw [h1]; exact keyNodup_filter _ _ h

theorem reactStep_posts_id (db : DB) (c : ReactCall) (pid : Nat)
    (h : ∃ p ∈ db.posts, p.id = pid) : ∃ p ∈ (reactStep db c).posts, p.id = pid := by
  rcases reactStep_cases db c with heq | ⟨post, counts, rows, hp, hrows, heq⟩
  · rw [heq]; exact h
  · rw [heq, reactWrite_posts]
    obtain ⟨p, hmem, hid⟩ := h
    refine ⟨if p.id == c.post_id then { p with reactions := counts } else p,
      List.mem_map.mpr ⟨p, hmem, rfl⟩, ?_⟩
    split <;> simpa

theorem reactStep_edge_self (db : DB) (c : ReactCall)
    (hpost : ∃ p ∈ db.posts, p.id = c.post_id) :
    edgeOf (reactStep db c) c.user_email c.post_id = some c.emoji := by
  obtain ⟨p0, hmem, hid⟩ := hpost
  have hfs : (db.posts.find? (fun p => p.id == c.post_id)).isSome :=
    List.find?_isSome.mpr ⟨p0, hmem, by exact beq_iff_eq.mpr hid⟩
  obtain ⟨post, hp⟩ := Option.isSome_iff_exists.mp hfs
  unfold reactStep api_react_post
  rw [hp]
  cases hr : db.user_reactions.find? (matchKey c.user_email c.post_id) with
  | none =>
    simp only [Option.map_none']
    exact edgeOf_reactWrite_self db post c.user_email c.post_id c.emoji _ _
  | some r0 =>
    cases hb : r0.emoji == c.emoji with
    | true =>
      simp only [Option.map_some', hb, if_true]
      unfold edgeOf
      rw [hr, Option.map_some', beq_iff_eq.mp hb]
    | false =>
      simp only [Option.map_some', hb, Bool.false_eq_true, if_false]
      cases hb2 : r0.emoji == "" with
      | true =>
        simp only [hb2, if_true]
        exact edgeOf_reactWrite_self db post c.user_email c.post_id c.emoji _ _
      | false =>
        simp only [hb2, Bool.false_eq_true, if_false]
        exact edgeOf_reactWrite_self db post c.user_email c.post_id c.emoji _ _

theorem reactStep_edge_other (db : DB) (c : ReactCall) (u : String) (pid : Nat)
    (hne : ¬(c.user_email = u ∧ c.post_id = pid)) :
    edgeOf (reactStep db c) u pid = edgeOf db u pid := by
  have hkey : ∀ x : ReactionRow, matchKey u pid x = true →
      matchKey c.user_email c.post_id x = true → False := by
    intro x h1 h2
    unfold matchKey at h1 h2
    simp only [Bool.and_eq_true, beq_iff_eq] at h1 h2
    exact hne ⟨h2.1.symm.trans h1.1, h2.2.symm.trans h1.2⟩
  rcases reactStep_cases db c with heq | ⟨post, counts, rows, hp, hrows, heq⟩
  · rw [heq]
  · rw [heq]
    unfold edgeOf
    rw [reactWrite_rows]
    unfold insertOrReplace
    rw [List.find?_append]
    have hnew : (matchKey u pid (ReactionRow.mk c.user_email c.post_id c.emoji)) = false := by
      cases hx : matchKey u pid (ReactionRow.mk c.user_email c.post_id c.emoji) with
      | false => rfl
      | true =>
        exact absurd (hkey _ hx (by simp [matchKey])) (fun f => f)
    have hlast : ([(⟨c.user_email, c.post_id, c.emoji⟩ : ReactionRow)].find?
        (matchKey u pid)) = none := by
      rw [List.find?_cons_of_neg _ (by simp [hnew])]
      rfl
    rw [hlast]
    have hfilter : ((rows.filter (fun s =>
        !(matchKey (ReactionRow.mk c.user_email c.post_id c.emoji).user_email
          (ReactionRow.mk c.user_email c.post_id c.emoji).post_id s))).find?
        (matchKey u pid)) = rows.find? (matchKey u pid) := by
      apply find?_filter_of_imp
      intro x hx
      cases hcx : matchKey c.user_email c.post_id x with
      | false => simp [hcx]
      | true => exact absurd (hkey x hx hcx) (fun f => f)
    rw [hfilter]
    rcases hrows with h1 | h1
    · rw [h1, Option.or_none]
    · rw [h1]
      unfold deleteEdge
      rw [find?_filter_of_imp _ _ _ (fun x hx => by
        cases hcx : matchKey c.user_email c.post_id x with
        | false => simp [hcx]
        | true => exact absurd (hkey x hx hcx) (fun f => f)), Option.or_none]

theorem runReacts_keyNodup (db : DB) (cs : List ReactCall)
    (h : keyNodup db.user_reactions) : keyNodup (runReacts db cs).user_reactions := by
  induction cs generalizing db with
  | nil => exact h
  | cons c rest ih => exact ih (reactStep db c) (reactStep_keyNodup db c h)

theorem runReacts_edge_untouched (db : DB) (cs : List ReactCall) (u : String) (pid : Nat)
    (h : ∀ c ∈ cs, ¬(c.user_email = u ∧ c.post_id = pid)) :
    edgeOf (runReacts db cs) u pid = edgeOf db u pid := by
  induction cs generalizing db with
  | nil => rfl
  | cons c rest ih =>
    have h1 := reactStep_edge_other db c u pid (h c (List.mem_cons_self c rest))
    have h2 := ih (reactStep db c) (fun x hx => h x (List.mem_cons_of_mem c hx))
    exact h2.trans h1

theorem length_filter_matchKey_le_one (rows : List ReactionRow) (u : String) (pid : Nat)
    (h : keyNodup rows) : (rows.filter (matchKey u pid)).length ≤ 1 := by
  induction rows with
  | nil => simp
  | cons r t ih =>
    unfold keyNodup at h
    rw [List.pairwise_cons] at h
    rw [List.filter_cons]
    cases hm : matchKey u pid r with
    | false => simpa using ih h.2
    | true =>
      have hnil : t.filter (matchKey u pid) = [] := by
        apply List.filter_eq_nil_iff.mpr
        intro s hs
        intro hms
        unfold matchKey at hm hms
        simp only [Bool.and_eq_true, beq_iff_eq] at hm hms
        exact h.1 s hs ⟨hm.1.trans hms.1.symm, hm.2.trans hms.2.symm⟩
      simp [hnil]

theorem getLast?_cons_of_ne_nil {α : Type} (a : α) (l : List α) (h : l ≠ []) :
    (a :: l).getLast? = l.getLast? := by
  cases l with
  | nil => cases h rfl
  | cons b t => rfl

theorem runReacts_last_emoji (db : DB) (cs : List ReactCall) (u : String) (pid : Nat)
    (e : String) (hpost : ∃ p ∈ db.posts, p.id = pid)
    (hlast : lastEmojiFor cs u pid = some e) :
    edgeOf (runReacts db cs) u pid = some e := by
  induction cs generalizing db with
  | nil => simp [lastEmojiFor] at hlast
  | cons c rest ih =>
    cases hc : (c.user_email == u && c.post_id == pid) with
    | false =>
      have hlast' : lastEmojiFor rest u pid = some e := by
        unfold lastEmojiFor at hlast ⊢
        rwa [List.filter_cons_of_neg (by simp [hc])] at hlast
      exact ih (reactStep db c) (reactStep_posts_id db c pid hpost) hlast'
    | true =>
      have hcu : c.user_email = u ∧ c.post_id = pid := by simpa using hc
      by_cases hrest : (rest.filter (fun x => x.user_email == u && x.post_id == pid)) = []
      · have he : c.emoji = e := by
          unfold lastEmojiFor at hlast
          rw [List.filter_cons_of_pos (p := fun x : ReactCall =>
            x.user_email == u && x.post_id == pid) hc, hrest] at hlast
          simpa using hlast
        have h1 : edgeOf (reactStep db c) u pid = some e := by
          have h0 := reactStep_edge_self db c (by rw [hcu.2]; exact hpost)
          rw [hcu.1, hcu.2, he] at h0
          exact h0
        have h2 : ∀ x ∈ rest, ¬(x.user_email = u ∧ x.post_id = pid) := by
          intro x hx hmatch
          have : x ∈ rest.filter (fun x => x.user_email == u && x.post_id == pid) :=
            List.mem_filter.mpr ⟨hx, by simp [hmatch.1, hmatch.2]⟩
          rw [hrest] at this
          cases this
        have h3 := runReacts_edge_untouched (reactStep db c) rest u pid h2
        exact h3.trans h1
      · have hlast' : lastEmojiFor rest u pid = some e := by
          unfold lastEmojiFor at hlast ⊢
          rw [List.filter_cons_of_pos (p := fun x : ReactCall =>
            x.user_email == u && x.post_id == pid) hc,
            getLast?_cons_of_ne_nil c _ hrest] at hlast
          exact hlast
        exact ih (reactStep db c) (reactStep_posts_id db c pid hpost) hlast'

/--
C7: starting from a store whose reaction rows respect the UNIQUE
(user_email, post_id) constraint, after any sequence of react calls the
constraint still holds — at most one reaction edge exists per (account,
post) pair — and whenever the sequence addressed a pair of an existing post,
the stored emoji of that pair equals the emoji of the most recent call for
the pair.
-/
theorem react_at_most_one_edge_last_wins (db : DB) (cs : List ReactCall)
    (hnodup : keyNodup db.user_reactions) :
    keyNodup (runReacts db cs).user_reactions ∧
    (∀ u pid, ((runReacts db cs).user_reactions.filter (matchKey u pid)).length ≤ 1) ∧
    ∀ u pid e, (∃ p ∈ db.posts, p.id = pid) →
      lastEmojiFor cs u pid = some e →
      edgeOf (runReacts db cs) u pid = some e := by
  have h1 := runReacts_keyNodup db cs hnodup
  exact ⟨h1, fun u pid => length_filter_matchKey_le_one _ u pid h1,
    fun u pid e hp hl => runReacts_last_emoji db cs u pid e hp hl⟩

/-- Witness for C7: account b reacts 👍 then ❤️ on the post of `dbSelf`. -/
theorem react_at_most_one_edge_last_wins_witness :
    keyNodup (runReacts dbSelf [⟨"b@x", 1, "👍"⟩, ⟨"b@x", 1, "❤️"⟩]).user_reactions ∧
    (∀ u pid, ((runReacts dbSelf [⟨"b@x", 1, "👍"⟩, ⟨"b@x", 1, "❤️"⟩]).user_reactions.filter
      (matchKey u pid)).length ≤ 1) ∧
    ∀ u pid e, (∃ p ∈ dbSelf.posts, p.id = pid) →
      lastEmojiFor [⟨"b@x", 1, "👍"⟩, ⟨"b@x", 1, "❤️"⟩] u pid = some e →
      edgeOf (runReacts dbSelf [⟨"b@x", 1, "👍"⟩, ⟨"b@x", 1, "❤️"⟩]) u pid = some e :=
  react_at_most_one_edge_last_wins dbSelf [⟨"b@x", 1, "👍"⟩, ⟨"b@x", 1, "❤️"⟩]
    List.Pairwise.nil


/-! ## C8: reaction count sum versus reacting accounts -/

/--
C8 (code bug): the comment at src/app.py:733 says the previous reaction is
decremented when it exists, but the guard `if prev_emoji:` on the next line
is false for a stored empty-string emoji, so that decrement and the edge
DELETE are skipped.  At the store reached from the empty database by three
public calls — create a post, react to it with the empty-string emoji, then
switch the reaction to 👍 — the sum of the post reaction counts is 2 while
exactly one account holds a reaction edge to the post, so the claimed
equality between the count sum and the number of reacting accounts fails.
-/
theorem reaction_count_sum_bug :
    ((reactionsOf (DB.run [.createPost "a@x" "A" "" "hi" "",
        .react "b@x" 1 "", .react "b@x" 1 "👍"]) 1).map Prod.snd).sum = 2 ∧
    accountsReacting (DB.run [.createPost "a@x" "A" "" "hi" "",
        .react "b@x" 1 "", .react "b@x" 1 "👍"]) 1 = 1 :=
  ⟨rfl, rfl⟩
